import Mathlib

/-!
Shallow embedding of the `oxide` shell (src/lib.rs, src/main.rs) and proofs
of the specification claims about it.

The embedding models:
* `tokenize` — the quote/escape-aware tokenizer (src/lib.rs `tokenize`);
* `mainSplit` — the word splitting actually performed by the read-eval loop
  in src/main.rs (`input.trim().split_whitespace()`);
* `split_redirect` — the redirection resolver (src/lib.rs `split_redirect`);
* `parse` — the command classifier (src/lib.rs `ShellCommand::parse`);
* `execute` — the dispatcher (src/lib.rs `ShellCommand::execute`), as a pure
  function from a command and an environment of collaborator answers to a
  trace of observable effects plus the continue-looping signal.  A Rust
  `unwrap` panic (failed working-directory query, failed file write) is
  modelled as `Except.error ()`.
-/

/-! ## Tokenizer (src/lib.rs lines 216-259) -/

/-- The mutable state of the tokenizer loop: the emitted words, the
current-word buffer, and the three flags of the Rust function
(`in_single`, `in_double`, `in_blackslash` — the field name keeps the
source's spelling). -/
structure TokState where
  args : List String
  current : List Char
  in_single : Bool
  in_double : Bool
  in_blackslash : Bool
deriving Repr, DecidableEq

/-- One iteration of the `for c in input.chars()` loop of `tokenize`. -/
def tokStep (s : TokState) (c : Char) : TokState :=
  if s.in_blackslash then
    { s with current := s.current ++ [c], in_blackslash := false }
  else if c = '\'' ∧ s.in_double = false then
    { s with in_single := !s.in_single }
  else if c = '"' ∧ s.in_single = false then
    { s with in_double := !s.in_double }
  else if c = '\\' ∧ s.in_single = false then
    { s with in_blackslash := true }
  else if (c = ' ' ∨ c = '\t') ∧ s.in_single = false ∧ s.in_double = false then
    if s.current.isEmpty then s
    else { s with args := s.args ++ [String.mk s.current], current := [] }
  else
    { s with current := s.current ++ [c] }

/-- The flush after the loop: `if !current.is_empty() { args.push(current); }`. -/
def tokFinalize (s : TokState) : List String :=
  if s.current.isEmpty then s.args else s.args ++ [String.mk s.current]

/-- src/lib.rs `tokenize`: split a raw line into words honoring single quotes,
double quotes and backslash escapes. -/
def tokenize (input : String) : List String :=
  tokFinalize (input.data.foldl tokStep ⟨[], [], false, false, false⟩)

/-! ## The main loop's word splitting (src/main.rs line 21) -/

/-- Rust `char::is_whitespace`: membership in the Unicode `White_Space` set. -/
def rustIsWhitespace (c : Char) : Bool :=
  [0x09, 0x0A, 0x0B, 0x0C, 0x0D, 0x20, 0x85, 0xA0, 0x1680,
   0x2000, 0x2001, 0x2002, 0x2003, 0x2004, 0x2005, 0x2006, 0x2007,
   0x2008, 0x2009, 0x200A, 0x2028, 0x2029, 0x202F, 0x205F, 0x3000].contains c.toNat

/-- Rust `str::split_whitespace` over a character list: maximal runs of
non-whitespace characters, empty substrings discarded.  `cur` is the
current-word accumulator, `acc` the words emitted so far. -/
def swAux : List Char → List Char → List String → List String
  | [], cur, acc => if cur.isEmpty then acc else acc ++ [String.mk cur]
  | c :: cs, cur, acc =>
    if rustIsWhitespace c then
      if cur.isEmpty then swAux cs [] acc else swAux cs [] (acc ++ [String.mk cur])
    else swAux cs (cur ++ [c]) acc

/-- Rust `str::trim`: strip leading and trailing Unicode whitespace. -/
def rustTrim (l : List Char) : List Char :=
  ((l.dropWhile rustIsWhitespace).reverse.dropWhile rustIsWhitespace).reverse

/-- The word splitting of the read-eval loop, src/main.rs line 21:
`input.trim().split_whitespace().collect()`. -/
def mainSplit (input : String) : List String :=
  swAux (rustTrim input.data) [] []

/-! ## Redirect resolver (src/lib.rs lines 261-289) -/

/-- The redirection specification of src/lib.rs (`enum Redirect`). -/
inductive Redirect where
  | AppendStdout (path : String)
  | AppendStderr (path : String)
  | Stderr (path : String)
  | Stdout (path : String)
deriving Repr, DecidableEq

/-- Rust `Iterator::position`: index of the first element satisfying `p`. -/
def position (p : String → Bool) : List String → Option Nat
  | [] => none
  | a :: rest => if p a then some 0 else (position p rest).map (· + 1)

/-- One block of `split_redirect`: find the first occurrence of an operator of
the class `p`; honor it only when at least one word follows (`pos + 1 < len`),
in which case the words before it are the operands and the next word is the
target. -/
def tryOp (p : String → Bool) (mk : String → Redirect) (args : List String) :
    Option (List String × Redirect) :=
  match position p args with
  | some pos =>
    if pos + 1 < args.length then some (args.take pos, mk (args.getD (pos + 1) ""))
    else none
  | none => none

/-- src/lib.rs `split_redirect`: try the four operator classes in precedence
order `>>`/`1>>`, `2>>`, `2>`, `>`/`1>`; if none is honored, return the word
list unchanged with no redirect. -/
def split_redirect (args : List String) : List String × Option Redirect :=
  match tryOp (fun a => a = ">>" ∨ a = "1>>") Redirect.AppendStdout args <|>
        tryOp (fun a => a = "2>>") Redirect.AppendStderr args <|>
        tryOp (fun a => a = "2>") Redirect.Stderr args <|>
        tryOp (fun a => a = ">" ∨ a = "1>") Redirect.Stdout args with
  | some (ops, r) => (ops, some r)
  | none => (args, none)

/-- Spec-side formulation of §4.2 (for claim C2 only): the index of the first
occurrence, in this operator class, that has at least one following word. -/
def firstOpIdx (p : String → Bool) : List String → Option Nat
  | [] => none
  | [_] => none
  | a :: b :: rest => if p a then some 0 else (firstOpIdx p (b :: rest)).map (· + 1)

/-- Spec-side counterpart of `tryOp`, built on `firstOpIdx`. -/
def tryOpSpec (p : String → Bool) (mk : String → Redirect) (args : List String) :
    Option (List String × Redirect) :=
  (firstOpIdx p args).map (fun i => (args.take i, mk (args.getD (i + 1) "")))

/-- Spec-side `resolve_redirect`, the words of §4.2: scan left-to-right, per
precedence class, for the first operator with a following word; otherwise the
full sequence is returned unchanged with no RedirectSpec. -/
def resolve_redirect (args : List String) : List String × Option Redirect :=
  match tryOpSpec (fun a => a = ">>" ∨ a = "1>>") Redirect.AppendStdout args <|>
        tryOpSpec (fun a => a = "2>>") Redirect.AppendStderr args <|>
        tryOpSpec (fun a => a = "2>") Redirect.Stderr args <|>
        tryOpSpec (fun a => a = ">" ∨ a = "1>") Redirect.Stdout args with
  | some (ops, r) => (ops, some r)
  | none => (args, none)

/-! ## Command model (src/lib.rs lines 6-41) -/

/-- src/lib.rs `enum ShellCommand`. -/
inductive ShellCommand where
  | Exit
  | Echo (args : List String)
  | Pwd
  | Type (name : String) (args : List String)
  | Cd (path : String) (args : List String)
  | External (cmd : String) (args : List String)
  | Empty
deriving Repr, DecidableEq

/-- src/lib.rs `ShellCommand::parse`.  The Rust function indexes `tokens[0]`
and is only ever called on a non-empty token list (src/main.rs guards
`tokens.is_empty()`); the `[]` case is mapped to `Empty` here. -/
def parse : List String → ShellCommand
  | [] => ShellCommand.Empty
  | t :: rest =>
    if t = "exit" then ShellCommand.Exit
    else if t = "echo" then ShellCommand.Echo rest
    else if t = "pwd" then ShellCommand.Pwd
    else if t = "type" then
      match rest with
      | x :: _ => ShellCommand.Type x rest
      | [] => ShellCommand.Empty
    else if t = "cd" then
      match rest with
      | x :: _ => ShellCommand.Cd x rest
      | [] => ShellCommand.Empty
    else ShellCommand.External t rest

/-! ## Observable effects and the collaborator environment -/

/-- One observable effect of executing a command.  `termOut`/`termErr` are
chunks printed to the terminal's stdout/stderr (`println!` contributes the
text plus a newline, `print!` just the text).  `fileOverwrite` models
`std::fs::write` (create the file and truncate it to exactly the given
bytes); `fileAppend` models `OpenOptions::new().append(true).create(true)`
followed by `write_all` (create the file if absent, append the given bytes —
appending `""` only touches the file).  `chdir` records an attempted
`env::set_current_dir`, `spawn` a spawned external process. -/
inductive OutChunk where
  | termOut (s : String)
  | termErr (s : String)
  | fileOverwrite (path : String) (content : String)
  | fileAppend (path : String) (content : String)
  | chdir (path : String)
  | spawn (prog : String) (args : List String)
deriving Repr, DecidableEq

/-- Answers of the ambient process state and the external collaborators,
fixed for the duration of one `execute` call.
`isBuiltin` is the predicate of the `built_in_commands` module.  Modelled
from the spec: that module's source is not under src/, and §4.4 only says it
recognizes the five builtin names, so it is kept abstract here (no claim
depends on its value).
`findExecutable` models `pathsearch::find_executable_in_path` (the resolved
path rendered as a string); `homeVar` models `env::var("HOME")`; `isDir`
models `Path::is_dir`; `setCwdOk` tells whether `env::set_current_dir`
succeeds and `ioErrMsg` is the display of its error when it fails;
`currentDir` models `env::current_dir` (`none` = the query fails, so
`.unwrap()` panics); `writeOk` tells whether creating/opening the redirect
target file succeeds (`false` = the write's `.unwrap()` panics); `procOut`
gives the captured (stdout, stderr) of a spawned process. -/
structure Env where
  isBuiltin : String → Bool
  findExecutable : String → Option String
  homeVar : Option String
  isDir : String → Bool
  setCwdOk : String → Bool
  ioErrMsg : String
  currentDir : Option String
  writeOk : String → Bool
  procOut : String → List String → String × String

/-- src/lib.rs `write_output` as an effect trace: a file redirect writes the
text (overwrite for `Stdout`/`Stderr`, append for the `Append` variants);
with no redirect the text is printed to the terminal with a newline. -/
def write_output (text : String) (r : Option Redirect) : List OutChunk :=
  match r with
  | some (Redirect.Stdout f) => [OutChunk.fileOverwrite f text]
  | some (Redirect.Stderr f) => [OutChunk.fileOverwrite f text]
  | some (Redirect.AppendStdout f) => [OutChunk.fileAppend f text]
  | some (Redirect.AppendStderr f) => [OutChunk.fileAppend f text]
  | none => [OutChunk.termOut (text ++ "\n")]

/-- The Echo arm of `execute` (src/lib.rs lines 49-71), given the joined
operand text and the resolved redirect. -/
def echoRoute (output : String) (r : Option Redirect) : List OutChunk :=
  match r with
  | some (Redirect.Stderr f) =>
    OutChunk.termOut (output ++ "\n") :: write_output "" (some (Redirect.Stderr f))
  | some (Redirect.Stdout f) => write_output (output ++ "\n") (some (Redirect.Stdout f))
  | some (Redirect.AppendStdout f) =>
    write_output (output ++ "\n") (some (Redirect.AppendStdout f))
  | some (Redirect.AppendStderr f) =>
    OutChunk.termOut (output ++ "\n") :: write_output "" (some (Redirect.AppendStderr f))
  | none => [OutChunk.termOut (output ++ "\n")]

/-- The routing match of the Type arm of `execute` (src/lib.rs lines 90-105),
given the classification message and the resolved redirect. -/
def typeRoute (output : String) (r : Option Redirect) : List OutChunk :=
  match r with
  | some (Redirect.Stderr f) =>
    OutChunk.termOut (output ++ "\n") :: write_output "" (some (Redirect.Stderr f))
  | some (Redirect.Stdout f) => write_output output (some (Redirect.Stdout f))
  | some (Redirect.AppendStdout f) => write_output output (some (Redirect.AppendStdout f))
  | some (Redirect.AppendStderr f) => write_output output (some (Redirect.AppendStderr f))
  | none => [OutChunk.termOut (output ++ "\n")]

/-- The routing match used by both error branches of the Cd arm of `execute`
(src/lib.rs lines 119-135 and 139-155): every redirect goes through
`write_output`; with no redirect the message goes to terminal stderr
(`eprintln!`). -/
def cdRoute (error_msg : String) (r : Option Redirect) : List OutChunk :=
  match r with
  | some (Redirect.Stderr f) => write_output error_msg (some (Redirect.Stderr f))
  | some (Redirect.Stdout f) => write_output error_msg (some (Redirect.Stdout f))
  | some (Redirect.AppendStdout f) => write_output error_msg (some (Redirect.AppendStdout f))
  | some (Redirect.AppendStderr f) => write_output error_msg (some (Redirect.AppendStderr f))
  | none => [OutChunk.termErr (error_msg ++ "\n")]

/-- The routing match of the External arm of `execute` (src/lib.rs lines
171-206), given the captured stdout/stderr of the spawned process.  Note the
source's AppendStderr arm prints the captured stdout with `eprint!`. -/
def externalRoute (sout serr : String) (r : Option Redirect) : List OutChunk :=
  match r with
  | some (Redirect.Stdout f) => [OutChunk.fileOverwrite f sout, OutChunk.termErr serr]
  | some (Redirect.Stderr f) => [OutChunk.fileOverwrite f serr, OutChunk.termOut sout]
  | some (Redirect.AppendStdout f) => [OutChunk.fileAppend f sout, OutChunk.termErr serr]
  | some (Redirect.AppendStderr f) => [OutChunk.fileAppend f serr, OutChunk.termErr sout]
  | none => [OutChunk.termOut sout, OutChunk.termErr serr]

/-- The classification message computed by the Type arm (src/lib.rs lines
80-88). -/
def typeMessage (env : Env) (name : String) : String :=
  if env.isBuiltin name then name ++ " is a shell builtin"
  else
    match env.findExecutable name with
    | some exe => name ++ " is " ++ exe
    | none => name ++ ": not found"

/-- Whether every file write in a chunk list succeeds (its target can be
created/opened).  A `false` answer means one of the source's `.unwrap()`
calls on a file operation panics. -/
def chunksOk (env : Env) (cs : List OutChunk) : Bool :=
  cs.all fun c =>
    match c with
    | OutChunk.fileOverwrite f _ => env.writeOk f
    | OutChunk.fileAppend f _ => env.writeOk f
    | _ => true

/-- Emit a chunk list, panicking (`Except.error ()`) when a file write in it
fails. -/
def emit (env : Env) (cs : List OutChunk) : Except Unit (List OutChunk) :=
  if chunksOk env cs then Except.ok cs else Except.error ()

/-- The resolved target of Cd (src/lib.rs lines 110-114): `~` becomes
`$HOME`, falling back to `/` when unset; any other path is literal. -/
def cdTarget (env : Env) (path : String) : String :=
  if path = "~" then env.homeVar.getD "/" else path

/-- src/lib.rs `ShellCommand::execute`, as a pure function to an effect trace
and the continue-looping signal.  `Except.error ()` models an `.unwrap()`
panic (failed working-directory query, failed file write). -/
def execute (cmd : ShellCommand) (env : Env) : Except Unit (List OutChunk × Bool) :=
  match cmd with
  | ShellCommand.Exit => Except.ok ([], false)
  | ShellCommand.Echo args =>
    let p := split_redirect args
    let output := String.intercalate " " p.1
    (emit env (echoRoute output p.2)).map (fun cs => (cs, true))
  | ShellCommand.Pwd =>
    match env.currentDir with
    | none => Except.error ()
    | some path => Except.ok ([OutChunk.termOut (path ++ "\n")], true)
  | ShellCommand.Type name args =>
    let p := split_redirect args
    (emit env (typeRoute (typeMessage env name) p.2)).map (fun cs => (cs, true))
  | ShellCommand.Cd path args =>
    let p := split_redirect args
    let target := cdTarget env path
    if env.isDir target then
      if env.setCwdOk target then Except.ok ([OutChunk.chdir target], true)
      else
        (emit env (OutChunk.chdir target ::
          cdRoute ("cd: " ++ env.ioErrMsg) p.2)).map (fun cs => (cs, true))
    else
      (emit env (cdRoute ("cd: " ++ target ++ ": No such file or directory")
        p.2)).map (fun cs => (cs, true))
  | ShellCommand.External cmd args =>
    let p := split_redirect args
    match env.findExecutable cmd with
    | none => Except.ok ([OutChunk.termOut (cmd ++ ": command not found\n")], true)
    | some _ =>
      let out := env.procOut cmd p.1
      (emit env (OutChunk.spawn cmd p.1 ::
        externalRoute out.1 out.2 p.2)).map (fun cs => (cs, true))
  | ShellCommand.Empty => Except.ok ([], true)

/-- A concrete environment for witnesses and counterexamples: nothing is a
builtin, no executable is found, no path is a directory, every file write
succeeds. -/
def env0 : Env where
  isBuiltin := fun _ => false
  findExecutable := fun _ => none
  homeVar := none
  isDir := fun _ => false
  setCwdOk := fun _ => false
  ioErrMsg := "io error"
  currentDir := some "/root"
  writeOk := fun _ => true
  procOut := fun _ _ => ("", "")

/-- `env0` with a failing working-directory query (`env::current_dir`
returns an error, so Pwd's `.unwrap()` panics). -/
def envNoCwd : Env :=
  { env0 with currentDir := none }

/-! ## Lemmas: the main loop's splitting vs the tokenizer -/

/-- A character that is no quote, no backslash, and whose only possible
whitespace readings are the plain space and tab also recognized by the
tokenizer.  On lines made of such characters the two word splittings agree. -/
def plainChar (c : Char) : Bool :=
  (c != '\'') && (c != '"') && (c != '\\') &&
  (!rustIsWhitespace c || (c == ' ' || c == '\t'))

lemma swAux_all_ws (p : List Char) (hp : ∀ c ∈ p, rustIsWhitespace c = true) :
    ∀ cur acc, swAux p cur acc = if cur.isEmpty then acc else acc ++ [String.mk cur] := by
  induction p with
  | nil => intro cur acc; rfl
  | cons c cs ih =>
    intro cur acc
    have hc : rustIsWhitespace c = true := hp c (List.mem_cons_self _ _)
    have hcs : ∀ x ∈ cs, rustIsWhitespace x = true :=
      fun x hx => hp x (List.mem_cons_of_mem _ hx)
    by_cases hcur : cur.isEmpty <;> simp [swAux, hc, hcur, ih hcs]

lemma swAux_append_ws (p : List Char) (hp : ∀ c ∈ p, rustIsWhitespace c = true) :
    ∀ l cur acc, swAux (l ++ p) cur acc = swAux l cur acc := by
  intro l
  induction l with
  | nil =>
    intro cur acc
    simp only [List.nil_append]
    rw [swAux_all_ws p hp]
    rfl
  | cons c cs ih =>
    intro cur acc
    simp only [List.cons_append]
    by_cases hws : rustIsWhitespace c = true <;>
      by_cases hcur : cur.isEmpty <;>
        simp [swAux, hws, hcur, ih]

lemma swAux_ws_leading (p : List Char) (hp : ∀ c ∈ p, rustIsWhitespace c = true) :
    ∀ l acc, swAux (p ++ l) [] acc = swAux l [] acc := by
  induction p with
  | nil => intro l acc; rfl
  | cons c cs ih =>
    intro l acc
    have hc : rustIsWhitespace c = true := hp c (List.mem_cons_self _ _)
    have hcs : ∀ x ∈ cs, rustIsWhitespace x = true :=
      fun x hx => hp x (List.mem_cons_of_mem _ hx)
    simp [swAux, hc, ih hcs]

lemma swAux_rustTrim (l : List Char) (acc : List String) :
    swAux (rustTrim l) [] acc = swAux l [] acc := by
  have hsplit : l.takeWhile rustIsWhitespace ++ l.dropWhile rustIsWhitespace = l :=
    List.takeWhile_append_dropWhile rustIsWhitespace l
  have hd :
      (l.dropWhile rustIsWhitespace).reverse.takeWhile rustIsWhitespace ++
        (l.dropWhile rustIsWhitespace).reverse.dropWhile rustIsWhitespace =
        (l.dropWhile rustIsWhitespace).reverse :=
    List.takeWhile_append_dropWhile rustIsWhitespace (l.dropWhile rustIsWhitespace).reverse
  have hdrop :
      l.dropWhile rustIsWhitespace =
        rustTrim l ++
          ((l.dropWhile rustIsWhitespace).reverse.takeWhile rustIsWhitespace).reverse := by
    unfold rustTrim
    calc l.dropWhile rustIsWhitespace
        = (l.dropWhile rustIsWhitespace).reverse.reverse := by rw [List.reverse_reverse]
      _ = ((l.dropWhile rustIsWhitespace).reverse.takeWhile rustIsWhitespace ++
            (l.dropWhile rustIsWhitespace).reverse.dropWhile rustIsWhitespace).reverse := by
            rw [hd]
      _ = _ := by rw [List.reverse_append]
  calc swAux (rustTrim l) [] acc
      = swAux (rustTrim l ++
          ((l.dropWhile rustIsWhitespace).reverse.takeWhile rustIsWhitespace).reverse)
          [] acc := by
        rw [swAux_append_ws _
          (fun c hc => List.mem_takeWhile_imp (List.mem_reverse.mp hc))]
    _ = swAux (l.dropWhile rustIsWhitespace) [] acc := by rw [← hdrop]
    _ = swAux (l.takeWhile rustIsWhitespace ++ l.dropWhile rustIsWhitespace) [] acc := by
        rw [swAux_ws_leading _ (fun c hc => List.mem_takeWhile_imp hc)]
    _ = swAux l [] acc := by rw [hsplit]

lemma tokenize_fold_eq_swAux (l : List Char) (hl : ∀ c ∈ l, plainChar c = true) :
    ∀ cur args,
      tokFinalize (l.foldl tokStep ⟨args, cur, false, false, false⟩) = swAux l cur args := by
  induction l with
  | nil => intro cur args; rfl
  | cons c cs ih =>
    intro cur args
    have hc := hl c (List.mem_cons_self _ _)
    have hcs : ∀ x ∈ cs, plainChar x = true :=
      fun x hx => hl x (List.mem_cons_of_mem _ hx)
    simp only [plainChar, Bool.and_eq_true, bne_iff_ne, ne_eq, Bool.or_eq_true,
      Bool.not_eq_true', beq_iff_eq] at hc
    obtain ⟨⟨⟨hq, hd⟩, hb⟩, hw⟩ := hc
    simp only [List.foldl_cons]
    by_cases hws : rustIsWhitespace c = true
    · have hst : c = ' ' ∨ c = '\t' := by
        rcases hw with h | h
        · rw [hws] at h; cases h
        · exact h
      by_cases hcur : cur.isEmpty
      · have hcur' : cur = [] := List.isEmpty_iff.mp hcur
        subst hcur'
        simp only [tokStep, hq, hd, hb]
        simp only [swAux, hws]
        simp [hst, ih hcs]
      · simp only [tokStep, hq, hd, hb]
        simp only [swAux, hws]
        simp [hst, hcur, ih hcs]
    · have h1 : c ≠ ' ' := by rintro rfl; exact hws (by decide)
      have h2 : c ≠ '\t' := by rintro rfl; exact hws (by decide)
      simp only [tokStep, hq, hd, hb]
      simp only [swAux, hws]
      simp [h1, h2, ih hcs]

/-! ## Claim C1 -/

/-- C1 (amended): the read-eval loop hands `parse` the words of
`input.trim().split_whitespace()` (`mainSplit`), not those of `tokenize`;
the two splittings agree exactly on lines whose characters are quote-free,
backslash-free, and whose whitespace is limited to plain spaces and tabs.
On such lines the sequence handed to the Command Model equals `tokenize`'s
output. -/
theorem mainSplit_eq_tokenize_of_plain (s : String)
    (h : ∀ c ∈ s.data, plainChar c = true) : mainSplit s = tokenize s := by
  unfold mainSplit tokenize
  rw [swAux_rustTrim]
  rw [tokenize_fold_eq_swAux s.data h]

/-- C1 witness: on the plain line `"a  b"` the loop's splitting and the
tokenizer agree. -/
theorem mainSplit_eq_tokenize_witness : mainSplit "a  b" = tokenize "a  b" :=
  mainSplit_eq_tokenize_of_plain "a  b" (by decide)

/-- C1 counterexample: on the raw line `'a b'` the loop's whitespace
splitting yields `["'a", "b'"]` while `tokenize` yields `["a b"]` — the word
sequence handed to `parse` is not the tokenizer's output, so the main loop
does not apply the quote and escape handling the claim asserts. -/
theorem mainSplit_ne_tokenize_quoted :
    mainSplit "'a b'" = ["'a", "b'"] ∧ tokenize "'a b'" = ["a b"] ∧
      mainSplit "'a b'" ≠ tokenize "'a b'" := by
  refine ⟨by decide, by decide, ?_⟩
  decide

/-! ## Claim C3 -/

/-- C3: the tokenizer meets the spec's reference cases: empty input gives no
words; runs of spaces collapse; single quotes protect spaces; a backslash
escapes a double quote inside double quotes; a backslash escapes a space
outside quotes. -/
theorem tokenize_reference_cases :
    tokenize "" = [] ∧
    tokenize "a  b" = ["a", "b"] ∧
    tokenize "'a b'" = ["a b"] ∧
    tokenize "\"a\\\"b\"" = ["a\"b"] ∧
    tokenize "a\\ b" = ["a b"] := by
  refine ⟨by decide, by decide, by decide, by decide, by decide⟩

/-! ## Claim C2 -/

lemma firstOpIdx_eq (p : String → Bool) :
    ∀ l, firstOpIdx p l =
      (position p l).bind (fun pos => if pos + 1 < l.length then some pos else none) := by
  intro l
  induction l with
  | nil => rfl
  | cons a l' ih =>
    cases l' with
    | nil => by_cases hpa : p a = true <;> simp [firstOpIdx, position, hpa]
    | cons b rs =>
      by_cases hpa : p a = true
      · simp [firstOpIdx, position, hpa]
      · have hfo : firstOpIdx p (a :: b :: rs) = (firstOpIdx p (b :: rs)).map (· + 1) := by
          simp [firstOpIdx, hpa]
        have hpo : position p (a :: b :: rs) = (position p (b :: rs)).map (· + 1) := by
          conv_lhs => rw [position]
          simp [hpa]
        rw [hfo, hpo, ih]
        cases hpos : position p (b :: rs) with
        | none => simp
        | some pos =>
          simp only [Option.map_some', Option.some_bind, List.length_cons]
          by_cases hlt : pos + 1 < rs.length + 1
          · have hlt2 : pos + 1 + 1 < rs.length + 1 + 1 := by omega
            simp [hlt, hlt2]
          · have hlt2 : ¬ (pos + 1 + 1 < rs.length + 1 + 1) := by omega
            simp [hlt, hlt2]

lemma tryOp_eq_tryOpSpec (p : String → Bool) (mk : String → Redirect)
    (args : List String) : tryOp p mk args = tryOpSpec p mk args := by
  unfold tryOp tryOpSpec
  rw [firstOpIdx_eq]
  cases hpos : position p args with
  | none => rfl
  | some pos =>
    by_cases hlt : pos + 1 < args.length <;> simp [hlt]

/-- C2: `split_redirect` honors the operator classes in precedence order
`>>`/`1>>`, `2>>`, `2>`, `>`/`1>`, taking in each class only the first
occurrence that has at least one following word (`resolve_redirect` is that
description verbatim); on `["x", ">>", "f", ">", "g"]` it yields operands
`["x"]` with stdout-append target `"f"`; and when no class has an occurrence
with a following word the sequence is returned unchanged with no redirect. -/
theorem split_redirect_precedence (args : List String) :
    split_redirect args = resolve_redirect args ∧
    split_redirect ["x", ">>", "f", ">", "g"] = (["x"], some (Redirect.AppendStdout "f")) ∧
    ((firstOpIdx (fun a => a = ">>" ∨ a = "1>>") args = none ∧
      firstOpIdx (fun a => a = "2>>") args = none ∧
      firstOpIdx (fun a => a = "2>") args = none ∧
      firstOpIdx (fun a => a = ">" ∨ a = "1>") args = none) →
      split_redirect args = (args, none)) := by
  have hmain : split_redirect args = resolve_redirect args := by
    unfold split_redirect resolve_redirect
    rw [tryOp_eq_tryOpSpec, tryOp_eq_tryOpSpec, tryOp_eq_tryOpSpec, tryOp_eq_tryOpSpec]
  refine ⟨hmain, by decide, ?_⟩
  rintro ⟨h1, h2, h3, h4⟩
  rw [hmain]
  unfold resolve_redirect tryOpSpec
  rw [h1, h2, h3, h4]
  rfl

/-- C2 witness: a trailing operator with nothing after it is not honored —
`["a", ">"]` comes back unchanged with no redirect. -/
theorem split_redirect_precedence_witness :
    split_redirect ["a", ">"] = (["a", ">"], none) :=
  (split_redirect_precedence ["a", ">"]).2.2 ⟨by decide, by decide, by decide, by decide⟩

/-! ## Claim C5 -/

/-- C5 (amended): Cd's error routing agrees with Type's routing for
stdout-overwrite, stdout-append and stderr-append redirects; with no redirect
both print the message to the terminal, but Cd uses the terminal's stderr
(`eprintln!`) where Type uses stdout (`println!`); for a stderr-overwrite
redirect they differ (Cd writes the message to the file, Type prints it to
the terminal and truncates the file to empty). -/
theorem cdRoute_eq_typeRoute_partial (msg f : String) :
    cdRoute msg (some (Redirect.Stdout f)) = typeRoute msg (some (Redirect.Stdout f)) ∧
    cdRoute msg (some (Redirect.AppendStdout f)) =
      typeRoute msg (some (Redirect.AppendStdout f)) ∧
    cdRoute msg (some (Redirect.AppendStderr f)) =
      typeRoute msg (some (Redirect.AppendStderr f)) ∧
    cdRoute msg none = [OutChunk.termErr (msg ++ "\n")] ∧
    typeRoute msg none = [OutChunk.termOut (msg ++ "\n")] :=
  ⟨rfl, rfl, rfl, rfl, rfl⟩

/-- C5 counterexample: under a stderr-overwrite redirect Cd and Type do not
route the same way — Cd writes the message to the file, Type prints it to the
terminal and leaves the file truncated to empty. -/
theorem cdRoute_ne_typeRoute_stderr :
    cdRoute "m" (some (Redirect.Stderr "f")) = [OutChunk.fileOverwrite "f" "m"] ∧
    typeRoute "m" (some (Redirect.Stderr "f")) =
      [OutChunk.termOut "m\n", OutChunk.fileOverwrite "f" ""] ∧
    cdRoute "m" (some (Redirect.Stderr "f")) ≠
      typeRoute "m" (some (Redirect.Stderr "f")) :=
  ⟨rfl, rfl, by decide⟩

/-! ## Claim C10 -/

/-- C10: a builtin message routed through `write_output` to a file arrives
without a trailing newline (Type's line under stdout-overwrite or
stdout-append, Cd's error message under every redirect), and an overwrite
redirect truncates the file to exactly those bytes — while the same message
printed to the terminal carries a trailing newline, as does Echo's
stdout-redirected file content. -/
theorem write_output_newline_discipline (msg f : String) :
    typeRoute msg (some (Redirect.Stdout f)) = [OutChunk.fileOverwrite f msg] ∧
    typeRoute msg (some (Redirect.AppendStdout f)) = [OutChunk.fileAppend f msg] ∧
    cdRoute msg (some (Redirect.Stdout f)) = [OutChunk.fileOverwrite f msg] ∧
    cdRoute msg (some (Redirect.AppendStdout f)) = [OutChunk.fileAppend f msg] ∧
    cdRoute msg (some (Redirect.Stderr f)) = [OutChunk.fileOverwrite f msg] ∧
    cdRoute msg (some (Redirect.AppendStderr f)) = [OutChunk.fileAppend f msg] ∧
    typeRoute msg none = [OutChunk.termOut (msg ++ "\n")] ∧
    cdRoute msg none = [OutChunk.termErr (msg ++ "\n")] ∧
    echoRoute msg (some (Redirect.Stdout f)) = [OutChunk.fileOverwrite f (msg ++ "\n")] :=
  ⟨rfl, rfl, rfl, rfl, rfl, rfl, rfl, rfl, rfl⟩

/-! ## Claim C4 -/

/-- C4 (amended): for a Type command whose trailing words resolve to a
stderr-append redirect (`2>>`) the classification line is appended to the
target file with the same text as the unredirected message; for a
stderr-overwrite redirect (`2>`) the line is printed to the terminal instead
and the target file is truncated to empty. -/
theorem type_stderr_redirect_routing (name : String) (args : List String) (env : Env)
    (ops : List String) (f : String) :
    (split_redirect args = (ops, some (Redirect.AppendStderr f)) →
      env.writeOk f = true →
      execute (ShellCommand.Type name args) env =
        Except.ok ([OutChunk.fileAppend f (typeMessage env name)], true)) ∧
    (split_redirect args = (ops, some (Redirect.Stderr f)) →
      env.writeOk f = true →
      execute (ShellCommand.Type name args) env =
        Except.ok ([OutChunk.termOut (typeMessage env name ++ "\n"),
          OutChunk.fileOverwrite f ""], true)) := by
  constructor <;> intro h hw <;>
    simp [execute, h, typeRoute, write_output, emit, chunksOk, hw, Except.map]

/-- C4 witness: `type x 2>> f` in `env0` appends the message to the file. -/
theorem type_stderr_redirect_routing_witness :
    execute (ShellCommand.Type "x" ["2>>", "f"]) env0 =
      Except.ok ([OutChunk.fileAppend "f" "x: not found"], true) :=
  (type_stderr_redirect_routing "x" ["2>>", "f"] env0 [] "f").1 (by decide) rfl

/-- C4 counterexample: under the stderr-overwrite redirect `2>` the file
receives the empty string, not the classification message — the message goes
to the terminal. -/
theorem type_stderr_overwrite_empties_file :
    execute (ShellCommand.Type "x" ["2>", "f"]) env0 =
      Except.ok ([OutChunk.termOut "x: not found\n",
        OutChunk.fileOverwrite "f" ""], true) ∧
    ("" : String) ≠ "x: not found" :=
  ⟨rfl, by decide⟩

/-! ## Claim C7 -/

/-- C7: an Echo whose arguments resolve to a stderr redirect prints the
joined operand text to the terminal's stdout with a trailing newline, and the
target file is created/touched but left empty — overwrite writes zero bytes,
append appends nothing. -/
theorem echo_stderr_redirect_behavior (args : List String) (env : Env)
    (ops : List String) (f : String) :
    (split_redirect args = (ops, some (Redirect.Stderr f)) →
      env.writeOk f = true →
      execute (ShellCommand.Echo args) env =
        Except.ok ([OutChunk.termOut (String.intercalate " " ops ++ "\n"),
          OutChunk.fileOverwrite f ""], true)) ∧
    (split_redirect args = (ops, some (Redirect.AppendStderr f)) →
      env.writeOk f = true →
      execute (ShellCommand.Echo args) env =
        Except.ok ([OutChunk.termOut (String.intercalate " " ops ++ "\n"),
          OutChunk.fileAppend f ""], true)) := by
  constructor <;> intro h hw <;>
    simp [execute, h, echoRoute, write_output, emit, chunksOk, hw, Except.map]

/-- C7 witness: `echo hi 2> f` in `env0` prints `hi` to the terminal and
truncates the file to empty. -/
theorem echo_stderr_redirect_behavior_witness :
    execute (ShellCommand.Echo ["hi", "2>", "f"]) env0 =
      Except.ok ([OutChunk.termOut "hi\n", OutChunk.fileOverwrite "f" ""], true) :=
  (echo_stderr_redirect_behavior ["hi", "2>", "f"] env0 ["hi"] "f").1 (by decide) rfl

/-! ## Claim C9 -/

/-- C9: an External command whose program the executable-lookup collaborator
cannot resolve prints exactly `<program>: command not found` to the terminal
— never to a redirect file, even when a redirect operator is present in the
arguments — spawns no process, and continues the loop. -/
theorem external_not_found (cmd : String) (args : List String) (env : Env)
    (h : env.findExecutable cmd = none) :
    execute (ShellCommand.External cmd args) env =
      Except.ok ([OutChunk.termOut (cmd ++ ": command not found\n")], true) := by
  simp [execute, h]

/-- C9 witness: `nonexistent_prog > f` in `env0` — the message goes to the
terminal, the redirect file is never written, nothing is spawned. -/
theorem external_not_found_witness :
    execute (ShellCommand.External "nonexistent_prog" [">", "f"]) env0 =
      Except.ok ([OutChunk.termOut "nonexistent_prog: command not found\n"], true) :=
  external_not_found "nonexistent_prog" [">", "f"] env0 rfl

/-! ## Claim C8 -/

/-- C8: a Cd whose resolved path is not a directory emits exactly
`cd: <path>: No such file or directory` (routed through the redirect-or-
terminal rule), and no directory change is attempted — the effect trace
contains no `chdir`, so the working directory is left unchanged. -/
theorem cd_not_directory_error (path : String) (args : List String) (env : Env)
    (h : env.isDir (cdTarget env path) = false)
    (hw : chunksOk env
      (cdRoute ("cd: " ++ cdTarget env path ++ ": No such file or directory")
        (split_redirect args).2) = true) :
    execute (ShellCommand.Cd path args) env =
      Except.ok (cdRoute ("cd: " ++ cdTarget env path ++ ": No such file or directory")
        (split_redirect args).2, true) ∧
    ∀ q, OutChunk.chdir q ∉
      cdRoute ("cd: " ++ cdTarget env path ++ ": No such file or directory")
        (split_redirect args).2 := by
  constructor
  · simp [execute, h, emit, hw, Except.map]
  · intro q
    rcases (split_redirect args).2 with _ | r
    · simp [cdRoute]
    · cases r <;> simp [cdRoute, write_output]

/-- C8 witness: `cd /does/not/exist` in `env0` prints the exact message to
the terminal's stderr and attempts no directory change. -/
theorem cd_not_directory_error_witness :
    execute (ShellCommand.Cd "/does/not/exist" []) env0 =
      Except.ok ([OutChunk.termErr "cd: /does/not/exist: No such file or directory\n"],
        true) :=
  (cd_not_directory_error "/does/not/exist" [] env0 rfl rfl).1

/-! ## Claim C6 -/

lemma map_true_snd (e : Except Unit (List OutChunk)) (r : List OutChunk × Bool)
    (h : e.map (fun cs => (cs, true)) = Except.ok r) : r.2 = true := by
  cases e with
  | error u => simp [Except.map] at h
  | ok cs =>
    simp only [Except.map, Except.ok.injEq] at h
    rw [← h]

/-- C6 (amended): `execute` returns the continue signal `false` exactly for
`Exit` — every other variant that completes returns `true`, so the loop stays
running.  But completion is not guaranteed: a failed collaborator call behind
one of the source's `.unwrap()`s (a failed working-directory query in Pwd, a
failed redirect-file write) panics, aborting the whole process and hence the
loop — not just the current command. -/
theorem execute_continue_iff_exit (c : ShellCommand) (env : Env)
    (r : List OutChunk × Bool) (h : execute c env = Except.ok r) :
    (r.2 = false ↔ c = ShellCommand.Exit) := by
  cases c with
  | Exit =>
    simp only [execute, Except.ok.injEq] at h
    simp [← h]
  | Echo args =>
    simp only [execute] at h
    have ht := map_true_snd _ r h
    simp [ht]
  | Pwd =>
    simp only [execute] at h
    cases hcd : env.currentDir with
    | none => rw [hcd] at h; simp at h
    | some path =>
      rw [hcd] at h
      simp only [Except.ok.injEq] at h
      simp [← h]
  | «Type» name args =>
    simp only [execute] at h
    have ht := map_true_snd _ r h
    simp [ht]
  | Cd path args =>
    simp only [execute] at h
    by_cases hd : env.isDir (cdTarget env path) = true
    · rw [if_pos hd] at h
      by_cases hs : env.setCwdOk (cdTarget env path) = true
      · rw [if_pos hs] at h
        simp only [Except.ok.injEq] at h
        simp [← h]
      · rw [if_neg hs] at h
        have ht := map_true_snd _ r h
        simp [ht]
    · rw [if_neg hd] at h
      have ht := map_true_snd _ r h
      simp [ht]
  | External cmd args =>
    simp only [execute] at h
    cases hf : env.findExecutable cmd with
    | none =>
      rw [hf] at h
      simp only [Except.ok.injEq] at h
      simp [← h]
    | some exe =>
      rw [hf] at h
      have ht := map_true_snd _ r h
      simp [ht]
  | Empty =>
    simp only [execute, Except.ok.injEq] at h
    simp [← h]

/-- C6 witness: applying the theorem to the completed run of `Empty` in
`env0` — its continue signal is `true` and it is not `Exit`. -/
theorem execute_continue_iff_exit_witness :
    ((([] : List OutChunk), true).snd = false ↔ ShellCommand.Empty = ShellCommand.Exit) :=
  execute_continue_iff_exit ShellCommand.Empty env0 ([], true) rfl

/-- C6 counterexample: with a failing working-directory query, `Pwd` does not
complete at all — the `.unwrap()` panics (modelled as `Except.error`),
aborting the process and the loop, contradicting the claim that such an error
aborts at most the current command and that every non-Exit variant completes
with the continue signal. -/
theorem pwd_failed_cwd_query_panics :
    execute ShellCommand.Pwd envNoCwd = Except.error () := rfl
